import Mathlib

/-!
Verification of the xcresult report generator (`src/cli.ts` and the action
wrapper).  The definitions below are shallow embeddings of the TypeScript
source: pure string-building code becomes Lean functions on `String`,
JavaScript numbers that hold test counts become `Nat`, durations become `Rat`,
optional JSON fields become `Option`, and each external process invocation
(`child_process.execSync`) is an oracle parameter of type `Except String _`
(an exception carries the error message).
-/

namespace Xcresult

/-- One decimal digit (`d < 10`) as a character, `0 ↦ '0'`, …, `9 ↦ '9'`. -/
def decDigitChar (d : Nat) : Char := Char.ofNat (48 + d)

/-- Big-endian decimal digit characters of `n` (empty for `0`); the first
argument is recursion fuel, sufficient whenever `n ≤ fuel`. -/
def natDecAux : Nat → Nat → List Char
  | 0, _ => []
  | fuel + 1, n => if n = 0 then [] else natDecAux fuel (n / 10) ++ [decDigitChar (n % 10)]

/-- Decimal rendering of a natural number, as JavaScript renders an integral
`number` in a template literal. -/
def natDecimal (n : Nat) : String :=
  if n = 0 then "0" else String.mk (natDecAux (n + 1) n)

/-- `toFixed(2)` of JavaScript, modelled on rationals: scale by 100, round to
the nearest integer (ties up; durations in the source are nonnegative), then
print with exactly two fraction digits. -/
def ratToFixed2 (q : Rat) : String :=
  let scaled : Int := (q * 100 + 1 / 2).floor
  (if scaled < 0 then "-" else "")
    ++ natDecimal (scaled.natAbs / 100)
    ++ "."
    ++ (if scaled.natAbs % 100 < 10 then "0" else "")
    ++ natDecimal (scaled.natAbs % 100)

/-- A node of the legacy `tests` tree (interface `LegacyTest`,
`src/src/cli.ts:65-71`).  Every field of the JSON node is optional; the
`_value` wrappers of the source are unwrapped into the payload directly. -/
inductive LegacyTest where
  | mk (name : Option String) (subtests : Option (List LegacyTest))
      (testStatus : Option String) (duration : Option Rat)
      (summaryRef : Option String)

/-- Field accessor mirroring `test.name`. -/
def LegacyTest.name : LegacyTest → Option String
  | .mk n _ _ _ _ => n

/-- Field accessor mirroring `test.subtests`.  `some l` models a present
`subtests` array (a present array is truthy in JavaScript even when empty). -/
def LegacyTest.subtests : LegacyTest → Option (List LegacyTest)
  | .mk _ s _ _ _ => s

/-- Field accessor mirroring `test.testStatus?._value`. -/
def LegacyTest.testStatus : LegacyTest → Option String
  | .mk _ _ s _ _ => s

/-- Field accessor mirroring `test.duration?._value`. -/
def LegacyTest.duration : LegacyTest → Option Rat
  | .mk _ _ _ d _ => d

/-- Field accessor mirroring `test.summaryRef`. -/
def LegacyTest.summaryRef : LegacyTest → Option String
  | .mk _ _ _ _ r => r

/-- JavaScript `x?._value || dflt`: an absent field or an empty (falsy)
string falls back to the default. -/
def jsOrElse (o : Option String) (dflt : String) : String :=
  match o with
  | some s => if s = "" then dflt else s
  | none => dflt

/-- The heading `\x60${indent}## ${test.name._value}\n\n\x60` emitted when
`test.name` is present (`src/src/cli.ts:247-249`); nothing otherwise. -/
def headingStr (name : Option String) (indent : String) : String :=
  match name with
  | some n => indent ++ "## " ++ n ++ "\n\n"
  | none => ""

/-- The per-test line (and optional failure sub-line) emitted for a subtest
without `subtests` (`src/src/cli.ts:256-265`). -/
def entryLine (name testStatus : Option String) (duration : Option Rat)
    (summaryRef : Option String) (indent : String) : String :=
  let testName := jsOrElse name ("Unknown Test")
  let status := jsOrElse testStatus ("unknown")
  let durStr := match duration with
    | some q => ratToFixed2 q
    | none => "?"
  let statusEmoji := if status = "Success" then "✅" else "❌"
  indent ++ "- " ++ statusEmoji ++ " **" ++ testName ++ "** (" ++ durStr ++ "s)\n"
    ++ (if status ≠ "Success" ∧ summaryRef.isSome then
          indent ++ "  - Failure: Test failed\n"
        else "")

/-- The inner `for (const subtest of test.subtests)` loop
(`src/src/cli.ts:252-267`): a child with `subtests` re-enters
`processTests([subtest], indent + "  ")` (unfolded here: its heading and its
children at the deeper indent); a child without `subtests` yields one entry
line at the *current* indent. -/
def processChildren : List LegacyTest → String → String
  | [], _ => ""
  | .mk name (some l) _ _ _ :: rest, indent =>
      headingStr name (indent ++ "  ") ++ processChildren l (indent ++ "  ")
        ++ processChildren rest indent
  | .mk name none st du sr :: rest, indent =>
      entryLine name st du sr indent ++ processChildren rest indent

/-- Body of `processTests` for one node of the `tests` array
(`src/src/cli.ts:246-269`): emit the heading when `name` is present, then, when
`subtests` is present, walk the children. -/
def processOneTest : LegacyTest → String → String
  | .mk name none _ _ _, indent => headingStr name indent
  | .mk name (some l) _ _ _, indent => headingStr name indent ++ processChildren l indent

/-- `processTests(tests, indent)` (`src/src/cli.ts:245-270`): concatenation of
the per-node output over the array, in source order. -/
def processTests (tests : List LegacyTest) (indent : String) : String :=
  match tests with
  | [] => ""
  | t :: ts => processOneTest t indent ++ processTests ts indent

/-- The `# Test Details` section built by the legacy branch of `main`
(`src/src/cli.ts:242-272`).  The parsed `show-passed-tests` option
(`src/src/cli.ts:82-86`) is in scope there but is never consulted by the
rendering code, which is why the parameter is unused here. -/
def legacyDetailSection (showPassedTests : Bool) (tests : List LegacyTest) : String :=
  "# Test Details\n\n" ++ processTests tests ("")

/-- One item of the flattened listing: a suite heading or a leaf test entry,
annotated with the indentation depth (in units of two spaces) at which it is
rendered. -/
inductive FlatItem where
  | heading (depth : Nat) (name : String)
  | entry (depth : Nat) (testName statusText durationText : String) (failureMark : Bool)

/-- Whether a flattened item is a suite heading. -/
def isHeading : FlatItem → Bool
  | .heading _ _ => true
  | .entry _ _ _ _ _ => false

/-- The indent string for depth `d`: `d` copies of two spaces, built by the
same left-to-right appends as the source's `indent + "  "`. -/
def indentStr : Nat → String
  | 0 => ""
  | d + 1 => indentStr d ++ "  "

/-- Markdown rendering of one flattened item, exactly the line shapes of
`src/src/cli.ts:248` and `src/src/cli.ts:261-264`. -/
def renderItem : FlatItem → String
  | .heading d n => indentStr d ++ "## " ++ n ++ "\n\n"
  | .entry d testName statusText durationText failureMark =>
      indentStr d ++ "- " ++ (if statusText = "Success" then "✅" else "❌")
        ++ " **" ++ testName ++ "** (" ++ durationText ++ "s)\n"
        ++ (if failureMark then indentStr d ++ "  - Failure: Test failed\n" else "")

/-- Concatenated rendering of a flattened listing. -/
def renderItems : List FlatItem → String
  | [] => ""
  | it :: rest => renderItem it ++ renderItems rest

/-- The heading items a node contributes: one heading when `name` is present,
none otherwise. -/
def headingItems (name : Option String) (d : Nat) : List FlatItem :=
  match name with
  | some n => [.heading d n]
  | none => []

/-- The entry item of a leaf subtest, with the defaults of
`src/src/cli.ts:256-258` already applied. -/
def entryItem (name testStatus : Option String) (duration : Option Rat)
    (summaryRef : Option String) (d : Nat) : FlatItem :=
  let status := jsOrElse testStatus ("unknown")
  .entry d (jsOrElse name ("Unknown Test")) status
    (match duration with
      | some q => ratToFixed2 q
      | none => "?")
    (decide (status ≠ "Success") && summaryRef.isSome)

/-- Depth-annotated flattening that mirrors what the *code* does: headings of
children that are suites appear one level deeper, while entries of children
that are leaves stay at the depth of the parent suite's own heading. -/
def codeFlattenChildren : List LegacyTest → Nat → List FlatItem
  | [], _ => []
  | .mk name (some l) _ _ _ :: rest, d =>
      headingItems name (d + 1) ++ codeFlattenChildren l (d + 1)
        ++ codeFlattenChildren rest d
  | .mk name none st du sr :: rest, d =>
      entryItem name st du sr d :: codeFlattenChildren rest d

/-- Flattening of one node at depth `d` (code behaviour). -/
def codeFlattenOne : LegacyTest → Nat → List FlatItem
  | .mk name none _ _ _, d => headingItems name d
  | .mk name (some l) _ _ _, d => headingItems name d ++ codeFlattenChildren l d

/-- Flattening of a forest at depth `d` (code behaviour). -/
def codeFlatten : List LegacyTest → Nat → List FlatItem
  | [], _ => []
  | t :: ts, d => codeFlattenOne t d ++ codeFlatten ts d

/-- Modelled from the spec: the flattening the claim describes, where *every*
child of a suite — leaf entries included — sits one level deeper than the
suite's heading ("emit a heading line at the current indent and recurse into
each child at indent+1"; a leaf entry's indent "equal to its nesting depth,
one level deeper than its parent suite's heading"). -/
def claimFlattenChildren : List LegacyTest → Nat → List FlatItem
  | [], _ => []
  | .mk name (some l) _ _ _ :: rest, d =>
      headingItems name (d + 1) ++ claimFlattenChildren l (d + 1)
        ++ claimFlattenChildren rest d
  | .mk name none st du sr :: rest, d =>
      entryItem name st du sr (d + 1) :: claimFlattenChildren rest d

/-- Modelled from the spec: one node of the claimed flattening. -/
def claimFlattenOne : LegacyTest → Nat → List FlatItem
  | .mk name none _ _ _, d => headingItems name d
  | .mk name (some l) _ _ _, d => headingItems name d ++ claimFlattenChildren l d

/-- Modelled from the spec: the claimed flattening of a forest. -/
def claimFlatten : List LegacyTest → Nat → List FlatItem
  | [], _ => []
  | t :: ts, d => claimFlattenOne t d ++ claimFlatten ts d

/-- All nodes of the forest, recursively, carry a `subtests` field (so the
forest contains no leaf in child position). -/
def allSuites : List LegacyTest → Bool
  | [] => true
  | .mk _ none _ _ _ :: _ => false
  | .mk _ (some l) _ _ _ :: rest => allSuites l && allSuites rest

/-- `t` is a suite none of whose descendants (in child position) is a leaf. -/
def noLeafDescendants : LegacyTest → Bool
  | .mk _ none _ _ _ => false
  | .mk _ (some l) _ _ _ => allSuites l

/-- The modern-schema summary JSON (interface `TestResults`,
`src/src/cli.ts:49-62`), restricted to the fields the summary section reads.
Counts are JSON numbers holding test counts, modelled as `Nat`. -/
structure TestResults where
  totalTestCount : Nat
  passedTests : Nat
  failedTests : Nat
  skippedTests : Nat
  expectedFailures : Nat
  result : String

/-- The `# Test Results Summary` section of the modern branch
(`src/src/cli.ts:163-169`): each field is interpolated verbatim. -/
def modernTestSummary (t : TestResults) : String :=
  "# Test Results Summary\n\n"
    ++ "- Total tests: " ++ natDecimal t.totalTestCount ++ "\n"
    ++ "- Passed tests: " ++ natDecimal t.passedTests ++ "\n"
    ++ "- Failed tests: " ++ natDecimal t.failedTests ++ "\n"
    ++ "- Skipped tests: " ++ natDecimal t.skippedTests ++ "\n"
    ++ "- Expected failures: " ++ natDecimal t.expectedFailures ++ "\n"
    ++ "- Result: " ++ t.result ++ "\n"

/-- The totals block of the legacy schema (`summaries[0].totals` and
`duration`, `src/src/cli.ts:233-238`). -/
structure LegacyTotals where
  testsCount : Nat
  failedCount : Nat
  unexpectedFailureCount : Nat
  duration : Rat

/-- The `# Test Results Summary` section of the legacy branch
(`src/src/cli.ts:217` and `src/src/cli.ts:233-239`). -/
def legacyTestSummary (d : LegacyTotals) : String :=
  "# Test Results Summary\n\n"
    ++ "- Total tests: " ++ natDecimal d.testsCount ++ "\n"
    ++ "- Failed tests: " ++ natDecimal d.failedCount ++ "\n"
    ++ "- Unexpected failures: " ++ natDecimal d.unexpectedFailureCount ++ "\n"
    ++ "- Test duration: " ++ ratToFixed2 d.duration ++ " seconds\n"

/-- Strip a literal prefix from a character list, returning the remainder. -/
def dropLit : List Char → List Char → Option (List Char)
  | [], l => some l
  | _ :: _, [] => none
  | p :: ps, c :: cs => if c = p then dropLit ps cs else none

/-- `parseInt` on a nonempty run of decimal digit characters. -/
def digitsToNat (ds : List Char) : Nat :=
  ds.foldl (fun a c => 10 * a + (c.toNat - 48)) 0

/-- Attempt of the regex `Xcode (\d+)\.(\d+)` at one fixed start position:
the literal `"Xcode "`, then a maximal nonempty digit run (greedy `\d+`
followed by the non-digit `\.` admits no shorter run), then `'.'`, then at
least one digit.  Returns both captured numbers. -/
def xcodeMatchHere (l : List Char) : Option (Nat × Nat) :=
  match dropLit ("Xcode ".data) l with
  | none => none
  | some r =>
    let ds := r.takeWhile Char.isDigit
    if ds.isEmpty then none
    else
      match r.drop ds.length with
      | '.' :: r2 =>
        let ds2 := r2.takeWhile Char.isDigit
        if ds2.isEmpty then none else some (digitsToNat ds, digitsToNat ds2)
      | _ => none

/-- Leftmost match of `Xcode (\d+)\.(\d+)` in the character list, as
JavaScript `String.prototype.match` finds it. -/
def xcodeSearch : List Char → Option (Nat × Nat)
  | [] => none
  | c :: cs =>
    match xcodeMatchHere (c :: cs) with
    | some r => some r
    | none => xcodeSearch cs

/-- `xcodeBuildOutput.match(/Xcode (\d+)\.(\d+)/)` with `parseInt` applied to
both captures (`src/src/cli.ts:141-142`). -/
def xcodeVersionMatch (s : String) : Option (Nat × Nat) :=
  xcodeSearch s.data

/-- Which of the two toolchain output schemas is in play. -/
inductive SchemaVersion where
  | legacy
  | modern
deriving DecidableEq

/-- Version detection (`src/src/cli.ts:133-142`): a failed version query is
replaced by the fallback text `"Xcode 15.0"` (modelled as the `none` input),
then `isXcode16OrHigher` holds exactly when the pattern matches with major
version at least 16. -/
def detectSchema (versionQuery : Option String) : SchemaVersion :=
  let xcodeBuildOutput :=
    match versionQuery with
    | some s => s
    | none => "Xcode 15.0"
  match xcodeVersionMatch xcodeBuildOutput with
  | some m => if 16 ≤ m.1 then .modern else .legacy
  | none => .legacy

/-- The character class `[0-9A-F]` of the target-line pattern. -/
def isHexUpperDigit (c : Char) : Bool := c.isDigit || ('A' ≤ c && c ≤ 'F')

/-- The regex class `\s`, restricted to the characters that can occur on one
line of the target listing (the listing is split on `'\n'` first). -/
def isJsWs (c : Char) : Bool :=
  c = ' ' || c = '\t' || c = '\r' || c = '\x0b' || c = '\x0c'

/-- Whether a character list is exactly `\s+\d+\s+\d+\.\d+%` — the part of
the target-line pattern after the lazy name capture.  Adjacent classes are
disjoint, so the decomposition is the unique maximal-run one. -/
def tailMatchesCov (l : List Char) : Bool :=
  let w1 := l.takeWhile isJsWs
  let r1 := l.dropWhile isJsWs
  if w1.isEmpty then false
  else
    let d1 := r1.takeWhile Char.isDigit
    let r2 := r1.dropWhile Char.isDigit
    if d1.isEmpty then false
    else
      let w2 := r2.takeWhile isJsWs
      let r3 := r2.dropWhile isJsWs
      if w2.isEmpty then false
      else
        let d2 := r3.takeWhile Char.isDigit
        let r4 := r3.dropWhile Char.isDigit
        if d2.isEmpty then false
        else
          match r4 with
          | '.' :: r5 =>
            let d3 := r5.takeWhile Char.isDigit
            let r6 := r5.dropWhile Char.isDigit
            if d3.isEmpty then false
            else
              match r6 with
              | ['%'] => true
              | _ => false
          | _ => false

/-- The lazy capture `(.+?)`: the shortest nonempty character run after which
the rest of the line matches `\s+\d+\s+\d+\.\d+%$`.  The class `.` excludes
line terminators. -/
def findTargetName (acc : List Char) : List Char → Option (List Char)
  | [] => none
  | c :: rest =>
    if c = '\n' then none
    else if tailMatchesCov rest then some (acc ++ [c])
    else findTargetName (acc ++ [c]) rest

/-- `targetLine.match(/^[0-9A-F]+ (.+?)\s+\d+\s+\d+\.\d+%$/)`
(`src/src/cli.ts:326`), returning the first capture group: a maximal nonempty
run of `[0-9A-F]` (greedy, and the following literal space is not in the
class), one space, then the lazy name capture. -/
def matchTargetLine (line : String) : Option String :=
  let l := line.data
  let hex := l.takeWhile isHexUpperDigit
  let r1 := l.dropWhile isHexUpperDigit
  if hex.isEmpty then none
  else
    match r1 with
    | ' ' :: r2 => (findTargetName [] r2).map String.mk
    | _ => none

/-- `String.prototype.trim` on a string without line terminators. -/
def trimWs (s : String) : String :=
  String.mk (((s.data.dropWhile isJsWs).reverse.dropWhile isJsWs).reverse)

/-- The body of the per-target loop (`src/src/cli.ts:323-349`): an unmatched
line, or a matched line whose trimmed name is empty, contributes nothing
(`continue`); otherwise a `###` subsection follows, whose body is the fetched
detail, an inline error string when the fetch fails, or — when the
`--only-target` probe said the flag is unsupported — the one-line summary
fallback.  `fetchDetail` is the oracle for the per-target
`xcrun xccov view --report --only-target …` invocation. -/
def processTargetLine (supported : Bool) (fetchDetail : String → Except String String)
    (targetLine : String) : String :=
  match matchTargetLine targetLine with
  | none => ""
  | some raw =>
    let targetName := trimWs raw
    if targetName = "" then ""
    else
      "### " ++ targetName ++ "\n\n"
        ++ (if supported then
              match fetchDetail targetName with
              | .ok out => "```\n" ++ out ++ "```\n\n"
              | .error e => "Error getting details for target: " ++ e ++ "\n\n"
            else "```\n" ++ targetLine ++ "\n```\n\n")

/-- The whole per-target aggregation loop, concatenating subsections in
source order. -/
def aggregateTargets (targets : List String) (supported : Bool)
    (fetchDetail : String → Except String String) : String :=
  match targets with
  | [] => ""
  | line :: rest =>
      processTargetLine supported fetchDetail line
        ++ aggregateTargets rest supported fetchDetail

/-- Outcome of the legacy coverage step: the rendered section plus the
lifecycle of the scratch directory (`fs.mkdtempSync` / `fs.rmdirSync`). -/
structure CoverageStepResult where
  sectionText : String
  dirCreated : Bool
  dirRemoved : Bool

/-- The section the `catch` handler at `src/src/cli.ts:399-403` builds. -/
def coverageErrorSection (msg : String) : String :=
  "# Error Processing Code Coverage\n\nFailed to process code coverage: " ++ msg ++ "\n"

/-- The legacy coverage path from the `archiveRef` lookup on
(`src/src/cli.ts:368-397`), with the two external invocations as oracles:
`exportResult` for `xcrun xcresulttool export …` and `xccovResult` for
`xcrun xccov view --report …`.  The scratch directory is created as soon as
an `archiveRef` is present; `fs.rmdirSync` is reached only after both
invocations return normally — an exception jumps to the `catch` handler,
which builds the error section and performs no cleanup. -/
def legacyCoverageStep (archiveRef : Option String) (exportResult : Except String Unit)
    (xccovResult : Except String String) : CoverageStepResult :=
  match archiveRef with
  | none =>
      ⟨"# Code Coverage Summary\n\nNo code coverage data found in the xcresult bundle.\n",
        false, false⟩
  | some _ =>
    match exportResult with
    | .error e => ⟨coverageErrorSection e, true, false⟩
    | .ok _ =>
      match xccovResult with
      | .error e => ⟨coverageErrorSection e, true, false⟩
      | .ok out =>
          ⟨"# Code Coverage Summary\n\n```\n" ++ out ++ "```\n\n", true, true⟩

/-- An exception escaping the test-result `try` block: its message, plus
whatever `testDetails` text had already been accumulated when it was thrown
(the `catch` at `src/src/cli.ts:278-282` replaces only `testSummary`). -/
structure TestStepError where
  msg : String
  partialDetails : String

/-- The summary the `catch` handler at `src/src/cli.ts:278-282` builds. -/
def testErrorSummary (msg : String) : String :=
  "# Error Processing Test Results\n\nFailed to process test results: " ++ msg ++ "\n"

/-- `(testSummary, testDetails)` after the test-result `try`/`catch`
(`src/src/cli.ts:153-282`), as a function of the test pipeline's outcome. -/
def testSections (res : Except TestStepError (String × String)) : String × String :=
  match res with
  | .ok p => p
  | .error e => (testErrorSummary e.msg, e.partialDetails)

/-- `coverageSummary` after the coverage `try`/`catch`
(`src/src/cli.ts:287-404`), as a function of the coverage pipeline's
outcome. -/
def coverageSectionOf (covRes : Except String String) : String :=
  match covRes with
  | .ok s => s
  | .error m => coverageErrorSection m

/-- `fullReport` as assembled at `src/src/cli.ts:407-411`: the test summary,
the test details, and — when `--show-code-coverage` is set — the coverage
section. -/
def fullReport (testRes : Except TestStepError (String × String))
    (covRes : Except String String) (showCodeCoverage : Bool) : List String :=
  let p := testSections testRes
  [p.1, p.2] ++ (if showCodeCoverage then [coverageSectionOf covRes] else [])

/-- The whole of `main` after version detection, `Except.error` standing for
the paths that reach `process.exit(1)` via the outer `catch`
(`src/src/cli.ts:430-436`).  Both pipelines catch their own exceptions and do
not rethrow, so every combination of pipeline outcomes produces a report. -/
def mainOutcome (testRes : Except TestStepError (String × String))
    (covRes : Except String String) (showCodeCoverage : Bool) :
    Except String (List String) :=
  Except.ok (fullReport testRes covRes showCodeCoverage)

/-- Concrete legacy forest: one named suite containing one passing leaf. -/
def c1Tree : List LegacyTest :=
  [.mk (some ("A")) (some [.mk (some ("t")) none (some ("Success")) none none])
    none none none]

/-- Concrete legacy forest with one passing and one failing leaf under one
suite. -/
def c2Tree : List LegacyTest :=
  [.mk (some ("Suite")) (some
      [.mk (some ("passingTest")) none (some ("Success")) none none,
        .mk (some ("failingTest")) none (some ("Failure")) none (some ("ref"))])
    none none none]

/-- Concrete suite with a present but empty `subtests` array: a suite with
zero leaf descendants. -/
def emptySuite : LegacyTest :=
  .mk (some ("S")) (some []) none none none

/-- Concrete modern-schema summary with deliberately inconsistent counts
(passed + failed + skipped exceeding the total), used to witness that
rendering copies fields verbatim. -/
def sampleResults : TestResults :=
  ⟨1, 2, 3, 4, 5, ("ok")⟩

/-! Helper lemmas shared by the claim theorems. -/

theorem renderItems_append (a b : List FlatItem) :
    renderItems (a ++ b) = renderItems a ++ renderItems b := by
  induction a with
  | nil => simp [renderItems, String.empty_append]
  | cons it rest ih => simp [renderItems, ih, String.append_assoc]

theorem headingStr_renderItems (name : Option String) (d : Nat) :
    headingStr name (indentStr d) = renderItems (headingItems name d) := by
  cases name <;>
    simp [headingStr, headingItems, renderItems, renderItem, String.append_empty]

theorem entryLine_renderItem (name st : Option String) (du : Option Rat)
    (sr : Option String) (d : Nat) :
    entryLine name st du sr (indentStr d) = renderItem (entryItem name st du sr d) := by
  simp only [entryLine, entryItem, renderItem]
  by_cases h : jsOrElse st ("unknown") = "Success" <;> cases sr <;> simp [h]

/-! Theorems settling the claims. -/

theorem processChildren_flatten : ∀ (l : List LegacyTest) (indent : String) (d : Nat),
    indent = indentStr d →
    processChildren l indent = renderItems (codeFlattenChildren l d) := by
  intro l indent
  induction l, indent using processChildren.induct with
  | case1 ind =>
    intro d hd
    simp [processChildren, codeFlattenChildren, renderItems]
  | case2 name l st du sr rest ind ih1 ih2 =>
    intro d hd
    subst hd
    rw [show indentStr d ++ "  " = indentStr (d + 1) from rfl] at ih1
    simp only [processChildren, codeFlattenChildren]
    rw [show indentStr d ++ "  " = indentStr (d + 1) from rfl]
    rw [ih1 (d + 1) rfl, ih2 d rfl, headingStr_renderItems]
    rw [renderItems_append, renderItems_append, String.append_assoc]
  | case3 name st du sr rest ind ih =>
    intro d hd
    subst hd
    simp only [processChildren, codeFlattenChildren, renderItems]
    rw [ih d rfl, entryLine_renderItem]

theorem processOneTest_flatten : ∀ (t : LegacyTest) (d : Nat),
    processOneTest t (indentStr d) = renderItems (codeFlattenOne t d) := by
  intro t d
  match t with
  | .mk name none st du sr =>
    simp only [processOneTest, codeFlattenOne]
    exact headingStr_renderItems name d
  | .mk name (some l) st du sr =>
    simp only [processOneTest, codeFlattenOne]
    rw [renderItems_append, headingStr_renderItems, processChildren_flatten l _ d rfl]

theorem allSuites_no_entries : ∀ (l : List LegacyTest), allSuites l = true →
    ∀ d, (codeFlattenChildren l d).all isHeading = true := by
  intro l
  induction l using allSuites.induct with
  | case1 => intro _ d; simp [codeFlattenChildren]
  | case2 name st du sr rest => intro h d; simp [allSuites] at h
  | case3 name l st du sr rest ih1 ih2 =>
    intro h d
    simp only [allSuites, Bool.and_eq_true] at h
    simp only [codeFlattenChildren, List.all_append, Bool.and_eq_true]
    refine ⟨⟨?_, ih1 h.1 (d + 1)⟩, ih2 h.2 d⟩
    cases name <;> simp [headingItems, isHeading]

/-- Claim C1 (amended): the legacy tree walk is a depth-first pre-order
traversal that preserves source order — the rendered detail text is exactly
the rendering of the depth-annotated flattening `codeFlatten`, in which a
suite's heading sits at the suite's nesting depth, a child suite recurses one
level deeper, and a leaf test entry is rendered at the *same* indentation as
its parent suite's heading (one level *less* than the leaf's nesting depth,
not one more as claimed); a suite with zero leaf descendants contributes
heading lines and no entry lines. -/
theorem legacy_flatten_refinement :
    (∀ (ts : List LegacyTest) (d : Nat),
        processTests ts (indentStr d) = renderItems (codeFlatten ts d))
    ∧ (∀ (t : LegacyTest) (d : Nat), noLeafDescendants t = true →
        (codeFlattenOne t d).all isHeading = true) := by
  constructor
  · intro ts d
    induction ts with
    | nil => simp [processTests, codeFlatten, renderItems]
    | cons t rest ih =>
      simp only [processTests, codeFlatten]
      rw [renderItems_append, processOneTest_flatten, ih]
  · intro t d h
    match t with
    | .mk name none st du sr => simp [noLeafDescendants] at h
    | .mk name (some l) st du sr =>
      simp only [noLeafDescendants] at h
      simp only [codeFlattenOne, List.all_append, Bool.and_eq_true]
      exact ⟨by cases name <;> simp [headingItems, isHeading], allSuites_no_entries l h d⟩

/-- Claim C1 (witness): the refinement applied to the concrete empty suite,
whose `noLeafDescendants` hypothesis holds by evaluation. -/
theorem legacy_flatten_refinement_witness :
    noLeafDescendants emptySuite = true
    ∧ (codeFlattenOne emptySuite 0).all isHeading = true :=
  ⟨by simp [noLeafDescendants, allSuites, emptySuite],
    legacy_flatten_refinement.2 emptySuite 0
      (by simp [noLeafDescendants, allSuites, emptySuite])⟩

/-- Claim C1 (counterexample): on a suite `A` with a single passing leaf `t`,
the code renders the leaf at the same indentation as the suite's heading,
whereas the claimed flattening (`claimFlatten`, leaf one level deeper than
its parent suite's heading) renders it two spaces deeper — the two outputs
differ. -/
theorem claimed_leaf_indent_refuted :
    processTests c1Tree (indentStr 0) = "## A\n\n- ✅ **t** (?s)\n"
    ∧ renderItems (claimFlatten c1Tree 0) = "## A\n\n  - ✅ **t** (?s)\n"
    ∧ processTests c1Tree (indentStr 0) ≠ renderItems (claimFlatten c1Tree 0) := by
  have h1 : processTests c1Tree (indentStr 0) = "## A\n\n- ✅ **t** (?s)\n" := by
    simp [c1Tree, processTests, processOneTest, processChildren, headingStr, entryLine,
      jsOrElse, indentStr]
  have h2 : renderItems (claimFlatten c1Tree 0) = "## A\n\n  - ✅ **t** (?s)\n" := by
    simp [c1Tree, claimFlatten, claimFlattenOne, claimFlattenChildren, headingItems,
      entryItem, renderItems, renderItem, jsOrElse, indentStr, isHeading]
  refine ⟨h1, h2, ?_⟩
  rw [h1, h2]
  decide

/-- Claim C7: a node that carries a `subtests` field is processed purely as a
suite — its output is its heading followed by its children's output, and its
own leaf-like fields (`testStatus`, `duration`, `summaryRef`) do not
influence the output, whether the node sits at top level or in child
position; only nodes without `subtests` produce test-entry lines. -/
theorem subtests_take_precedence : ∀ (name : Option String) (l : List LegacyTest)
    (st st' : Option String) (du du' : Option Rat) (sr sr' : Option String)
    (rest : List LegacyTest) (indent : String),
    processOneTest (.mk name (some l) st du sr) indent
        = headingStr name indent ++ processChildren l indent
    ∧ processOneTest (.mk name (some l) st du sr) indent
        = processOneTest (.mk name (some l) st' du' sr') indent
    ∧ processChildren (.mk name (some l) st du sr :: rest) indent
        = processChildren (.mk name (some l) st' du' sr' :: rest) indent
    ∧ processChildren (.mk name none st du sr :: rest) indent
        = entryLine name st du sr indent ++ processChildren rest indent := by
  intro name l st st' du du' sr sr' rest indent
  refine ⟨?_, ?_, ?_, ?_⟩ <;> simp [processOneTest, processChildren]

/-- Claim C10: a top-level node of the `tests` forest without a `subtests`
field contributes at most its heading line — no test-entry line is produced
for it, and its `testStatus`, `duration` and `summaryRef` are dropped. -/
theorem top_level_leaf_dropped : ∀ (name : Option String) (st st' : Option String)
    (du du' : Option Rat) (sr sr' : Option String) (indent : String),
    processTests [.mk name none st du sr] indent = headingStr name indent
    ∧ processTests [.mk name none st du sr] indent
        = processTests [.mk name none st' du' sr'] indent := by
  intro name st st' du du' sr sr' indent
  constructor <;> simp [processTests, processOneTest, String.append_empty]

/-- Claim C2 (evidence for the code bug): rendering the legacy detail section
never consults the parsed `show-passed-tests` option — the output is the same
for both flag values — and with the flag `false` a forest containing one
passing and one failing test still renders the passing entry line. -/
theorem show_passed_tests_ignored :
    legacyDetailSection false c2Tree
      = "# Test Details\n\n## Suite\n\n- ✅ **passingTest** (?s)\n- ❌ **failingTest** (?s)\n  - Failure: Test failed\n"
    ∧ ∀ (b : Bool) (tests : List LegacyTest),
        legacyDetailSection b tests = legacyDetailSection true tests := by
  constructor
  · simp [legacyDetailSection, c2Tree, processTests, processOneTest, processChildren,
      headingStr, entryLine, jsOrElse]
  · intro b tests
    rfl

/-- Claim C3 (evidence for the code bug): in the legacy coverage path the
scratch directory is created as soon as an `archiveRef` is found, but when
the export invocation throws, the `catch` handler renders the error section
without removing the directory — `dirRemoved` is `false`; only the fully
successful path removes it. -/
theorem scratch_directory_leaks :
    (legacyCoverageStep (some ("archive")) (Except.error ("export failed"))
        (Except.ok (""))).dirCreated = true
    ∧ (legacyCoverageStep (some ("archive")) (Except.error ("export failed"))
        (Except.ok (""))).dirRemoved = false
    ∧ (legacyCoverageStep (some ("archive")) (Except.error ("export failed"))
        (Except.ok (""))).sectionText = coverageErrorSection ("export failed")
    ∧ (∀ out, (legacyCoverageStep (some ("archive")) (Except.ok ())
        (Except.error out)).dirRemoved = false)
    ∧ (∀ out, (legacyCoverageStep (some ("archive")) (Except.ok ())
        (Except.ok out)).dirRemoved = true) :=
  ⟨rfl, rfl, rfl, fun _ => rfl, fun _ => rfl⟩

/-- Claim C9: a failure of the test pipeline is rendered as the
`# Error Processing Test Results` section while the coverage section is still
computed from the coverage pipeline's own outcome; a failure of the coverage
pipeline is rendered as the `# Error Processing Code Coverage` section while
the two test sections are unchanged; the first two report elements depend
only on the test outcome, the rest only on the coverage outcome, and no
pipeline failure reaches the non-zero-exit path. -/
theorem error_sections_independent :
    (∀ (e : TestStepError) (covRes : Except String String) (showCov : Bool),
        fullReport (.error e) covRes showCov
          = [testErrorSummary e.msg, e.partialDetails]
              ++ (if showCov then [coverageSectionOf covRes] else []))
    ∧ (∀ (testRes : Except TestStepError (String × String)) (m : String),
        fullReport testRes (.error m) true
          = [(testSections testRes).1, (testSections testRes).2, coverageErrorSection m])
    ∧ (∀ (testRes : Except TestStepError (String × String))
        (covRes covRes' : Except String String) (showCov : Bool),
        (fullReport testRes covRes showCov).take 2
          = (fullReport testRes covRes' showCov).take 2)
    ∧ (∀ (testRes testRes' : Except TestStepError (String × String))
        (covRes : Except String String) (showCov : Bool),
        (fullReport testRes covRes showCov).drop 2
          = (fullReport testRes' covRes showCov).drop 2)
    ∧ (∀ (testRes : Except TestStepError (String × String))
        (covRes : Except String String) (showCov : Bool),
        mainOutcome testRes covRes showCov = Except.ok (fullReport testRes covRes showCov)) := by
  refine ⟨?_, ?_, ?_, ?_, ?_⟩
  · intro e covRes showCov
    simp [fullReport, testSections]
  · intro testRes m
    simp [fullReport, coverageSectionOf]
  · intro testRes covRes covRes' showCov
    cases showCov <;> simp [fullReport]
  · intro testRes testRes' covRes showCov
    cases showCov <;> simp [fullReport]
  · intro testRes covRes showCov
    rfl

theorem decDigitChar_isDigit : ∀ d : Nat, d < 10 → (decDigitChar d).isDigit = true := by
  intro d hd
  interval_cases d <;> decide

theorem decDigitChar_inj : ∀ d e : Nat, d < 10 → e < 10 →
    decDigitChar d = decDigitChar e → d = e := by
  intro d e hd he h
  interval_cases d <;> interval_cases e <;> revert h <;> decide

theorem natDecAux_eq_digits : ∀ fuel n, n ≤ fuel →
    natDecAux fuel n = ((Nat.digits 10 n).map decDigitChar).reverse := by
  intro fuel
  induction fuel with
  | zero =>
    intro n hn
    interval_cases n
    simp [natDecAux]
  | succ fuel ih =>
    intro n hn
    by_cases h0 : n = 0
    · subst h0
      simp [natDecAux]
    · have hpos : 0 < n := Nat.pos_of_ne_zero h0
      have hdiv : n / 10 ≤ fuel := by
        have := Nat.div_lt_self hpos (by norm_num : (1:Nat) < 10)
        omega
      rw [natDecAux, if_neg h0, ih (n / 10) hdiv,
        Nat.digits_def' (by norm_num : (1:Nat) < 10) hpos]
      simp

theorem natDecimal_digits : ∀ n, ∀ c ∈ (natDecimal n).data, c.isDigit = true := by
  intro n c hc
  by_cases h0 : n = 0
  · subst h0
    rw [show natDecimal 0 = "0" from rfl] at hc
    rw [show ("0").data = ['0'] from rfl] at hc
    simp at hc
    subst hc
    decide
  · rw [natDecimal, if_neg h0] at hc
    rw [show (String.mk (natDecAux (n + 1) n)).data = natDecAux (n + 1) n from rfl] at hc
    rw [natDecAux_eq_digits (n + 1) n (by omega)] at hc
    simp only [List.mem_reverse, List.mem_map] at hc
    obtain ⟨d, hd, rfl⟩ := hc
    exact decDigitChar_isDigit d (Nat.digits_lt_base (by norm_num) hd)

theorem map_decDigitChar_inj : ∀ xs ys : List Nat, (∀ d ∈ xs, d < 10) → (∀ d ∈ ys, d < 10) →
    xs.map decDigitChar = ys.map decDigitChar → xs = ys := by
  intro xs
  induction xs with
  | nil =>
    intro ys _ _ h
    cases ys with
    | nil => rfl
    | cons b bs => simp at h
  | cons a as ih =>
    intro ys hxs hys h
    cases ys with
    | nil => simp at h
    | cons b bs =>
      simp only [List.map_cons, List.cons.injEq] at h
      have hab : a = b :=
        decDigitChar_inj a b (hxs a (by simp)) (hys b (by simp)) h.1
      have : as = bs := ih bs (fun d hd => hxs d (by simp [hd]))
        (fun d hd => hys d (by simp [hd])) h.2
      rw [hab, this]

theorem natDecimal_inj : ∀ m n, natDecimal m = natDecimal n → m = n := by
  have key : ∀ n, n ≠ 0 → natDecimal n ≠ "0" := by
    intro n hn h
    have hd : (natDecimal n).data = ['0'] := by rw [h]
    rw [natDecimal, if_neg hn,
      show (String.mk (natDecAux (n + 1) n)).data = natDecAux (n + 1) n from rfl,
      natDecAux_eq_digits (n + 1) n (by omega)] at hd
    have hmap : (Nat.digits 10 n).map decDigitChar = ['0'] := by
      have := congrArg List.reverse hd
      simpa using this
    have hdig : Nat.digits 10 n = [0] := by
      apply map_decDigitChar_inj
      · intro d hdm
        exact Nat.digits_lt_base (by norm_num) hdm
      · intro d hdm
        simp at hdm
        omega
      · rw [hmap]
        rfl
    have h0 := congrArg (Nat.ofDigits 10) hdig
    rw [Nat.ofDigits_digits] at h0
    simp [Nat.ofDigits] at h0
    exact hn h0
  intro m n h
  by_cases hm : m = 0 <;> by_cases hn : n = 0
  · rw [hm, hn]
  · subst hm
    exact absurd h.symm (key n hn)
  · subst hn
    exact absurd h (key m hm)
  · have hdata : natDecAux (m + 1) m = natDecAux (n + 1) n := by
      have := congrArg String.data h
      rwa [natDecimal, natDecimal, if_neg hm, if_neg hn] at this
    rw [natDecAux_eq_digits (m + 1) m (by omega),
      natDecAux_eq_digits (n + 1) n (by omega)] at hdata
    have hmap : (Nat.digits 10 m).map decDigitChar = (Nat.digits 10 n).map decDigitChar := by
      have := congrArg List.reverse hdata
      simpa using this
    have hdig : Nat.digits 10 m = Nat.digits 10 n := by
      apply map_decDigitChar_inj _ _ _ _ hmap
      · intro d hd
        exact Nat.digits_lt_base (by norm_num) hd
      · intro d hd
        exact Nat.digits_lt_base (by norm_num) hd
    have := congrArg (Nat.ofDigits 10) hdig
    rwa [Nat.ofDigits_digits, Nat.ofDigits_digits] at this

theorem digit_run_peel : ∀ (a b t u : List Char),
    (∀ c ∈ a, c.isDigit = true) → (∀ c ∈ b, c.isDigit = true) →
    a ++ '\n' :: t = b ++ '\n' :: u → a = b ∧ t = u := by
  intro a
  induction a with
  | nil =>
    intro b t u _ hb h
    cases b with
    | nil =>
      simp only [List.nil_append, List.cons.injEq] at h
      exact ⟨rfl, h.2⟩
    | cons c bs =>
      simp only [List.nil_append, List.cons_append, List.cons.injEq] at h
      have : c.isDigit = true := hb c (by simp)
      rw [← h.1] at this
      exact absurd this (by decide)
  | cons c as ih =>
    intro b t u ha hb h
    cases b with
    | nil =>
      simp only [List.cons_append, List.nil_append, List.cons.injEq] at h
      have : c.isDigit = true := ha c (by simp)
      rw [h.1] at this
      exact absurd this (by decide)
    | cons d bs =>
      simp only [List.cons_append, List.cons.injEq] at h
      obtain ⟨hab, htu⟩ := ih bs t u (fun x hx => ha x (by simp [hx]))
        (fun x hx => hb x (by simp [hx])) h.2
      exact ⟨by rw [h.1, hab], htu⟩

/-- Claim C4: version detection maps a version string matching
`Xcode (\d+)\.(\d+)` with major at least 16 to the modern schema, and every
other input — no match, empty string, or a failed version query (the `none`
input, replaced by the fallback text) — to the legacy schema; being a total
function, it never throws. -/
theorem version_detection :
    (∀ q : Option String, detectSchema q = .modern ↔
        ∃ s, q = some s ∧ ∃ p : Nat × Nat, xcodeVersionMatch s = some p ∧ 16 ≤ p.1)
    ∧ detectSchema (some ("Xcode 16.3")) = .modern
    ∧ detectSchema (some ("Xcode 15.4")) = .legacy
    ∧ detectSchema (some ("")) = .legacy
    ∧ detectSchema none = .legacy := by
  refine ⟨?_, rfl, rfl, rfl, rfl⟩
  intro q
  cases q with
  | none =>
    constructor
    · intro h
      exact absurd h (by decide)
    · rintro ⟨s, hs, -⟩
      exact absurd hs (by simp)
  | some s =>
    simp only [detectSchema]
    rcases h : xcodeVersionMatch s with - | p
    · simp [h]
    · by_cases h16 : 16 ≤ p.1
      · simp only [h, if_pos h16]
        simp only [true_iff]
        exact ⟨s, rfl, p, h, h16⟩
      · simp only [h, if_neg h16]
        constructor
        · intro hcontra
          exact absurd hcontra (by decide)
        · rintro ⟨s', hs', p', hp', h16'⟩
          cases hs'
          rw [h] at hp'
          cases hp'
          exact absurd h16' h16

/-- Claim C5: the modern summary section lists the five counts and the result
verdict exactly as they appear in the source fields — the rendered text is the
fixed template with each field interpolated verbatim (also for inconsistent
counts, since the equation holds for every field combination), and the
rendering determines every field uniquely, so no count is recomputed,
collapsed or derived from the others. -/
theorem modern_summary_verbatim :
    (∀ t : TestResults, modernTestSummary t =
        "# Test Results Summary\n\n"
          ++ "- Total tests: " ++ natDecimal t.totalTestCount ++ "\n"
          ++ "- Passed tests: " ++ natDecimal t.passedTests ++ "\n"
          ++ "- Failed tests: " ++ natDecimal t.failedTests ++ "\n"
          ++ "- Skipped tests: " ++ natDecimal t.skippedTests ++ "\n"
          ++ "- Expected failures: " ++ natDecimal t.expectedFailures ++ "\n"
          ++ "- Result: " ++ t.result ++ "\n")
    ∧ (∀ t₁ t₂ : TestResults, modernTestSummary t₁ = modernTestSummary t₂ →
        t₁.totalTestCount = t₂.totalTestCount ∧ t₁.passedTests = t₂.passedTests
          ∧ t₁.failedTests = t₂.failedTests ∧ t₁.skippedTests = t₂.skippedTests
          ∧ t₁.expectedFailures = t₂.expectedFailures ∧ t₁.result = t₂.result) := by
  constructor
  · intro t
    rfl
  · intro t₁ t₂ h
    have hd := congrArg String.data h
    simp only [modernTestSummary, String.data_append, List.append_assoc,
      show ("\n").data = ['\n'] from rfl, List.cons_append, List.nil_append] at hd
    simp only [List.cons.injEq, eq_self_iff_true, true_and] at hd
    obtain ⟨e1, hd⟩ := digit_run_peel _ _ _ _ (natDecimal_digits _) (natDecimal_digits _) hd
    simp only [List.cons.injEq, eq_self_iff_true, true_and] at hd
    obtain ⟨e2, hd⟩ := digit_run_peel _ _ _ _ (natDecimal_digits _) (natDecimal_digits _) hd
    simp only [List.cons.injEq, eq_self_iff_true, true_and] at hd
    obtain ⟨e3, hd⟩ := digit_run_peel _ _ _ _ (natDecimal_digits _) (natDecimal_digits _) hd
    simp only [List.cons.injEq, eq_self_iff_true, true_and] at hd
    obtain ⟨e4, hd⟩ := digit_run_peel _ _ _ _ (natDecimal_digits _) (natDecimal_digits _) hd
    simp only [List.cons.injEq, eq_self_iff_true, true_and] at hd
    obtain ⟨e5, hd⟩ := digit_run_peel _ _ _ _ (natDecimal_digits _) (natDecimal_digits _) hd
    simp only [List.cons.injEq, eq_self_iff_true, true_and] at hd
    have hr : t₁.result.data = t₂.result.data := List.append_left_injective ['\n'] hd
    exact ⟨natDecimal_inj _ _ (String.ext e1), natDecimal_inj _ _ (String.ext e2),
      natDecimal_inj _ _ (String.ext e3), natDecimal_inj _ _ (String.ext e4),
      natDecimal_inj _ _ (String.ext e5), String.ext hr⟩

/-- Claim C5 (witness): the injectivity direction applied at the concrete
`sampleResults`, its equality hypothesis discharged by `rfl`. -/
theorem modern_summary_verbatim_witness :
    modernTestSummary sampleResults = modernTestSummary sampleResults
    ∧ sampleResults.totalTestCount = sampleResults.totalTestCount
    ∧ sampleResults.result = sampleResults.result :=
  ⟨rfl, (modern_summary_verbatim.2 sampleResults sampleResults rfl).1,
    (modern_summary_verbatim.2 sampleResults sampleResults rfl).2.2.2.2.2⟩

theorem ratToFixed2_chars : ∀ (q : Rat) (c : Char), c ∈ (ratToFixed2 q).data →
    c.isDigit = true ∨ c = '.' ∨ c = '-' := by
  intro q c hc
  simp only [ratToFixed2, String.data_append, List.mem_append] at hc
  rcases hc with (((h | h) | h) | h) | h
  · split_ifs at h
    · simp at h
      subst h
      right; right; rfl
    · simp at h
  · exact Or.inl (natDecimal_digits _ _ h)
  · simp at h
    subst h
    right; left; rfl
  · split_ifs at h
    · simp at h
      subst h
      left; decide
    · simp at h
  · exact Or.inl (natDecimal_digits _ _ h)

/-- Claim C6: the legacy summary section is the fixed four-field template
(total tests, failed tests, unexpected failures, duration) with the reported
values interpolated; and it never prints a `Passed tests`, `Skipped tests` or
`Expected failures` line for the fields the legacy schema does not report —
witnessed by the fact that the characters `P`, `k` and `E`, each of which
occurs in the corresponding modern-schema label, never occur in the rendered
section at all (the interpolated values contribute only digits, `.` and
`-`). -/
theorem legacy_summary_only_reported :
    (∀ d : LegacyTotals, legacyTestSummary d =
        "# Test Results Summary\n\n"
          ++ "- Total tests: " ++ natDecimal d.testsCount ++ "\n"
          ++ "- Failed tests: " ++ natDecimal d.failedCount ++ "\n"
          ++ "- Unexpected failures: " ++ natDecimal d.unexpectedFailureCount ++ "\n"
          ++ "- Test duration: " ++ ratToFixed2 d.duration ++ " seconds\n")
    ∧ (∀ d : LegacyTotals, (('P') ∈ (legacyTestSummary d).data) = False)
    ∧ (∀ d : LegacyTotals, (('k') ∈ (legacyTestSummary d).data) = False)
    ∧ (∀ d : LegacyTotals, (('E') ∈ (legacyTestSummary d).data) = False) := by
  have hP : ∀ d : LegacyTotals, ('P') ∈ (legacyTestSummary d).data → False := by
    intro d h
    simp only [legacyTestSummary, String.data_append, List.mem_append] at h
    rcases h with (((((((((((h | h) | h) | h) | h) | h) | h) | h) | h) | h) | h) | h) | h
    all_goals first
      | exact absurd h (by decide)
      | exact absurd (natDecimal_digits _ _ h) (by decide)
      | (rcases ratToFixed2_chars _ _ h with h1 | h1 | h1 <;> revert h1 <;> decide)
  have hk : ∀ d : LegacyTotals, ('k') ∈ (legacyTestSummary d).data → False := by
    intro d h
    simp only [legacyTestSummary, String.data_append, List.mem_append] at h
    rcases h with (((((((((((h | h) | h) | h) | h) | h) | h) | h) | h) | h) | h) | h) | h
    all_goals first
      | exact absurd h (by decide)
      | exact absurd (natDecimal_digits _ _ h) (by decide)
      | (rcases ratToFixed2_chars _ _ h with h1 | h1 | h1 <;> revert h1 <;> decide)
  have hE : ∀ d : LegacyTotals, ('E') ∈ (legacyTestSummary d).data → False := by
    intro d h
    simp only [legacyTestSummary, String.data_append, List.mem_append] at h
    rcases h with (((((((((((h | h) | h) | h) | h) | h) | h) | h) | h) | h) | h) | h) | h
    all_goals first
      | exact absurd h (by decide)
      | exact absurd (natDecimal_digits _ _ h) (by decide)
      | (rcases ratToFixed2_chars _ _ h with h1 | h1 | h1 <;> revert h1 <;> decide)
  exact ⟨fun d => rfl, fun d => eq_false (hP d), fun d => eq_false (hk d),
    fun d => eq_false (hE d)⟩

/-- Claim C8: a target-list line that fails the name pattern is skipped — it
contributes no subsection and aggregation continues over the remaining lines;
when the support probe reported the flag unsupported, the aggregation never
consults the detail-fetch oracle and every matched target's subsection is the
one-line summary fallback; and a failed detail fetch for one target yields an
inline error string for that target only, the other subsections being
concatenated independently. -/
theorem coverage_aggregation_robust :
    (∀ (supported : Bool) (fetch : String → Except String String) (line : String)
        (rest : List String), matchTargetLine line = none →
        aggregateTargets (line :: rest) supported fetch = aggregateTargets rest supported fetch)
    ∧ (∀ (supported : Bool) (fetch : String → Except String String)
        (pre post : List String) (line : String), matchTargetLine line = none →
        aggregateTargets (pre ++ line :: post) supported fetch
          = aggregateTargets (pre ++ post) supported fetch)
    ∧ (∀ (fetch fetch' : String → Except String String) (targets : List String),
        aggregateTargets targets false fetch = aggregateTargets targets false fetch')
    ∧ (∀ (fetch : String → Except String String) (line raw : String),
        matchTargetLine line = some raw → trimWs raw ≠ "" →
        processTargetLine false fetch line
          = "### " ++ trimWs raw ++ "\n\n" ++ ("```\n" ++ line ++ "\n```\n\n"))
    ∧ (∀ (fetch : String → Except String String) (line raw e : String),
        matchTargetLine line = some raw → trimWs raw ≠ "" →
        fetch (trimWs raw) = .error e →
        processTargetLine true fetch line
          = "### " ++ trimWs raw ++ "\n\n"
              ++ ("Error getting details for target: " ++ e ++ "\n\n"))
    ∧ (∀ (supported : Bool) (fetch : String → Except String String) (line : String)
        (rest : List String),
        aggregateTargets (line :: rest) supported fetch
          = processTargetLine supported fetch line ++ aggregateTargets rest supported fetch) := by
  have hstep : ∀ (supported : Bool) (fetch : String → Except String String) (line : String)
      (rest : List String),
      aggregateTargets (line :: rest) supported fetch
        = processTargetLine supported fetch line ++ aggregateTargets rest supported fetch := by
    intro supported fetch line rest
    rfl
  have hskip : ∀ (supported : Bool) (fetch : String → Except String String) (line : String)
      (rest : List String), matchTargetLine line = none →
      aggregateTargets (line :: rest) supported fetch = aggregateTargets rest supported fetch := by
    intro supported fetch line rest h
    rw [hstep]
    simp [processTargetLine, h, String.empty_append]
  have hindep : ∀ (fetch fetch' : String → Except String String) (targets : List String),
      aggregateTargets targets false fetch = aggregateTargets targets false fetch' := by
    intro fetch fetch' targets
    induction targets with
    | nil => rfl
    | cons line rest ih =>
      rw [hstep, hstep, ih]
      rcases h : matchTargetLine line with - | raw <;> simp [processTargetLine, h]
  refine ⟨hskip, ?_, hindep, ?_, ?_, hstep⟩
  · intro supported fetch pre post line h
    induction pre with
    | nil => exact hskip supported fetch line post h
    | cons x xs ih =>
      simp only [List.cons_append]
      rw [hstep, hstep, ih]
  · intro fetch line raw hm ht
    simp [processTargetLine, hm, ht]
  · intro fetch line raw e hm ht hf
    simp [processTargetLine, hm, ht, hf]

/-- Claim C8 (witness): the skip, fallback and inline-error conjuncts applied
to the concrete matched line `1A2B MyTarget 3 45.67%`, the unmatched line
`not a target line` and a fetch oracle that always fails, all hypotheses
discharged by evaluation. -/
theorem coverage_aggregation_robust_witness :
    matchTargetLine ("1A2B MyTarget 3 45.67%") = some ("MyTarget")
    ∧ matchTargetLine ("not a target line") = none
    ∧ aggregateTargets [("not a target line")] true (fun _ => Except.error ("boom"))
        = aggregateTargets [] true (fun _ => Except.error ("boom"))
    ∧ processTargetLine false (fun _ => Except.error ("boom")) ("1A2B MyTarget 3 45.67%")
        = "### MyTarget\n\n" ++ ("```\n1A2B MyTarget 3 45.67%\n```\n\n")
    ∧ processTargetLine true (fun _ => Except.error ("boom")) ("1A2B MyTarget 3 45.67%")
        = "### MyTarget\n\n" ++ ("Error getting details for target: boom\n\n") := by
  refine ⟨rfl, rfl, ?_, ?_, ?_⟩
  · exact coverage_aggregation_robust.1 true _ _ [] rfl
  · have := coverage_aggregation_robust.2.2.2.1 (fun _ => Except.error ("boom"))
      ("1A2B MyTarget 3 45.67%") ("MyTarget") rfl (by decide)
    rw [this]
    rfl
  · have := coverage_aggregation_robust.2.2.2.2.1 (fun _ => Except.error ("boom"))
      ("1A2B MyTarget 3 45.67%") ("MyTarget") ("boom") rfl (by decide) rfl
    rw [this]
    rfl

end Xcresult
